import Mathlib

/-!
Shallow embedding of the RPC failover / rate-limited multi-chain connection
pool of `src/services/rpcManager.js` (class `RPCManager`), together with
proofs of its key behavioral properties (C1–C10): rate capping, priority
selection, circuit breaking, retry/backoff, health hysteresis, and the
state effects of success and of the administrative operations.

Modelling conventions:
* JS `Date.now()` is an explicit `now : Nat` argument (milliseconds); a
  `sleep ms` advances the clock by exactly `ms`.
* The JS `Map` fields (`requestCounters`, plus the plain objects
  `connections` and `rpcConfigs`) are association lists keyed by strings;
  the JS `Set` field `failedRPCs` is a duplicate-free `List String`.
* A live connection handle is identified by a `Nat` id (`connection`);
  JS object identity of the handles corresponds to these ids (handles are
  created once per endpoint, so in every reachable state they are distinct).
* Fallible JS code (`throw`) is an `Except` result; since mutations of the
  singleton object survive a throw, every operation also returns the state.
-/

namespace RPCManager

/-- Association-list lookup, first binding wins (JS object / `Map.get`). -/
def lookupA {α : Type} : List (String × α) → String → Option α
  | [], _ => none
  | (k', v) :: rest, k => if k' = k then some v else lookupA rest k

/-- Association-list update-or-insert (JS `Map.set` / property assignment). -/
def setA {α : Type} : List (String × α) → String → α → List (String × α)
  | [], k, v => [(k, v)]
  | (k', v') :: rest, k, v =>
    if k' = k then (k, v) :: rest else (k', v') :: setA rest k v

/-- JS `Set.add`: no duplicates. -/
def setAdd (l : List String) (u : String) : List String :=
  if l.contains u then l else l ++ [u]

/-- JS `Set.delete`. -/
def setDelete (l : List String) (u : String) : List String :=
  l.filter (fun x => x ≠ u)

/-- One per-url rate counter (`this.requestCounters` values). -/
structure Counter where
  count : Nat
  lastReset : Nat
  deriving Repr, DecidableEq

/-- One pooled endpoint (element of `this.connections[chain]`). -/
structure Endpoint where
  url : String
  priority : Nat
  maxRequestsPerSecond : Nat
  connection : Nat
  healthy : Bool
  lastUsed : Nat
  requestCount : Nat
  errorCount : Nat
  deriving Repr, DecidableEq

/-- One static configuration entry (element of `this.rpcConfigs[chain]`). -/
structure RPCConfig where
  url : String
  priority : Nat
  maxRequestsPerSecond : Nat
  deriving Repr, DecidableEq

/-- The mutable fields of the `RPCManager` singleton. -/
structure RPCState where
  initialized : Bool
  failedRPCs : List String
  connections : List (String × List Endpoint)
  requestCounters : List (String × Counter)
  rpcConfigs : List (String × List RPCConfig)
  lastHealthCheck : Nat
  deriving Repr, DecidableEq

/-- The two errors `getBestRPC` can throw. -/
inductive RPCErr where
  | notInitialized (chain : String)
  | noHealthy (chain : String)
  deriving Repr, DecidableEq

/-- `Math.floor(maxRequestsPerSecond * 0.8)`.  For the integer capacities the
manager uses, the double product `c * 0.8` floors to exactly `c * 4 / 5`. -/
def safeLimit (c : Nat) : Nat := c * 4 / 5

/-- `canMakeRequest(url, maxRequestsPerSecond)`: reads (and, on a window
rollover, mutates) the counter for `url`.  Returns the boolean together with
the possibly-updated state. -/
def canMakeRequest (st : RPCState) (url : String) (maxRPS now : Nat) :
    Bool × RPCState :=
  match lookupA st.requestCounters url with
  | none => (true, st)
  | some counter =>
    if 1000 ≤ now - counter.lastReset then
      (true, { st with requestCounters := setA st.requestCounters url ⟨0, now⟩ })
    else
      (decide (counter.count < safeLimit maxRPS), st)

/-- `updateRequestCounter(url)`: increment if the counter exists. -/
def updateRequestCounter (st : RPCState) (url : String) : RPCState :=
  match lookupA st.requestCounters url with
  | none => st
  | some counter =>
    { st with
        requestCounters :=
          setA st.requestCounters url ⟨counter.count + 1, counter.lastReset⟩ }

/-- The `connections.filter(...)` pass of `getBestRPC`: keep endpoints that
are healthy, not in `failedRPCs`, and whose rate counter admits a request;
`canMakeRequest` runs (with its mutations) only when the first two conjuncts
hold, mirroring `&&` short-circuiting. -/
def filterHealthy (now : Nat) : RPCState → List Endpoint →
    List Endpoint × RPCState
  | st, [] => ([], st)
  | st, e :: rest =>
    if e.healthy && !(st.failedRPCs.contains e.url) then
      let probe := canMakeRequest st e.url e.maxRequestsPerSecond now
      let tail := filterHealthy now probe.2 rest
      (if probe.1 then e :: tail.1 else tail.1, tail.2)
    else
      filterHealthy now st rest

/-- The ordering induced by the JS sort comparator
`(a, b) => a.priority != b.priority ? a.priority - b.priority
         : a.requestCount - b.requestCount` (le = comparator ≤ 0). -/
def rpcLE (a b : Endpoint) : Bool :=
  if a.priority = b.priority then decide (a.requestCount ≤ b.requestCount)
  else decide (a.priority < b.priority)

/-- Stable insertion used by `sortLE`. -/
def insertLE {α : Type} (le : α → α → Bool) (a : α) : List α → List α
  | [] => [a]
  | b :: rest => if le a b then a :: b :: rest else b :: insertLE le a rest

/-- Stable sort w.r.t. a boolean total preorder; models
`Array.prototype.sort` with a consistent comparator. -/
def sortLE {α : Type} (le : α → α → Bool) : List α → List α
  | [] => []
  | a :: rest => insertLE le a (sortLE le rest)

/-- The endpoint-record update performed on the selected endpoint
(`selected.lastUsed = Date.now(); selected.requestCount++`). -/
def markSelected (now : Nat) (e : Endpoint) : Endpoint :=
  { e with lastUsed := now, requestCount := e.requestCount + 1 }

/-- `getBestRPC(chain)` with explicit recursion fuel for the circuit-breaker
retry.  With a non-empty pool the recursion fires at most once (after
`failedRPCs.clear()` the guard `failedRPCs.size >= connections.length`
is false), so fuel 2 is exact; on an empty pool the JS recurses forever,
which fuel exhaustion maps to the `noHealthy` throw. -/
def getBestRPCAux : Nat → RPCState → String → Nat →
    (Except RPCErr Endpoint) × RPCState
  | 0, st, chain, _ => (.error (.noHealthy chain), st)
  | fuel + 1, st, chain, now =>
    if !st.initialized then (.error (.notInitialized chain), st)
    else
      match lookupA st.connections chain with
      | none => (.error (.notInitialized chain), st)
      | some conns =>
        let filt := filterHealthy now st conns
        match filt.1 with
        | [] =>
          if conns.length ≤ filt.2.failedRPCs.length then
            getBestRPCAux fuel { filt.2 with failedRPCs := [] } chain now
          else
            (.error (.noHealthy chain), filt.2)
        | c :: cs =>
          match sortLE rpcLE (c :: cs) with
          | [] => (.error (.noHealthy chain), filt.2)
          | sel :: _ =>
            let conns' := conns.map fun e =>
              if e.connection = sel.connection then markSelected now e else e
            let st' := { filt.2 with
                         connections := setA filt.2.connections chain conns' }
            (.ok (markSelected now sel), updateRequestCounter st' sel.url)

/-- `getBestRPC(chain)`: returns the selected endpoint (the caller projects
its `connection` field, as the JS returns `selected.connection`). -/
def getBestRPC (st : RPCState) (chain : String) (now : Nat) :
    (Except RPCErr Endpoint) × RPCState :=
  getBestRPCAux 2 st chain now

/-- Parse a maximal run of leading digits (helper for `firstNat`). -/
def takeDigits : List Char → Nat → Nat
  | [], acc => acc
  | c :: rest, acc =>
    if c.isDigit then takeDigits rest (acc * 10 + (c.toNat - 48)) else acc

/-- The first decimal number occurring in a string: JS `s.match(/(\d+)/)`
followed by `parseInt(match[1])`. -/
def firstNat : List Char → Option Nat
  | [] => none
  | c :: rest =>
    if c.isDigit then some (takeDigits (c :: rest) 0) else firstNat rest

/-- Substring helper for `strIncludes`. -/
def inclAux (pat : List Char) : List Char → Bool
  | [] => pat.isEmpty
  | c :: rest => pat.isPrefixOf (c :: rest) || inclAux pat rest

/-- JS `String.prototype.includes`. -/
def strIncludes (s pat : String) : Bool := inclAux pat.data s.data

/-- The `error.code` values the retry logic inspects: the number `429` or the
string `'NETWORK_ERROR'`. -/
inductive JsCode where
  | num (n : Nat)
  | str (s : String)
  deriving Repr, DecidableEq

/-- A thrown JS error, restricted to the fields `executeWithRetry` and
`handleRateLimit` read.  `retryAfter` models a present, numeric
`headers['retry-after']` (its value already parsed); `none` models absent
headers. -/
structure JsError where
  code : Option JsCode
  message : Option String
  retryAfter : Option Nat
  deriving Repr, DecidableEq

/-- `error.message?.includes(pat)` (false when `message` is undefined). -/
def msgIncludes (e : JsError) (pat : String) : Bool :=
  match e.message with
  | none => false
  | some m => strIncludes m pat

/-- `error.code === 429 || error.message?.includes('429') ||
error.message?.includes('rate limit')`. -/
def isRateLimitErr (e : JsError) : Bool :=
  e.code == some (.num 429) || msgIncludes e "429" || msgIncludes e "rate limit"

/-- `error.message?.includes('fetch failed') || error.code === 'NETWORK_ERROR'`. -/
def isNetworkErr (e : JsError) : Bool :=
  msgIncludes e "fetch failed" || e.code == some (.str "NETWORK_ERROR")

/-- `error.message?.includes('Invalid') || error.message?.includes('Not found')`. -/
def isNonRetryable (e : JsError) : Bool :=
  msgIncludes e "Invalid" || msgIncludes e "Not found"

/-- The wait time `handleRateLimit` extracts before clamping: the
`retry-after` header value in seconds, else the first number of a message
containing `'wait'` in seconds, else the 5000ms default. -/
def suggestedWait (e : JsError) : Nat :=
  match e.retryAfter with
  | some n => n * 1000
  | none =>
    if msgIncludes e "wait" then
      match firstNat ((e.message.getD "").data) with
      | some n => n * 1000
      | none => 5000
    else 5000

/-- The sleep duration of `handleRateLimit(chain, error)`: the suggested
wait clamped by `Math.min(Math.max(waitTime, 5000), 60000)`. -/
def rateLimitWait (e : JsError) : Nat :=
  min (max (suggestedWait e) 5000) 60000

/-- The `Error` objects `getBestRPC` throws, as caught by
`executeWithRetry`'s `catch`. -/
def errOfRPCErr : RPCErr → JsError
  | .notInitialized chain =>
    ⟨none, some ("RPC Manager not initialized for chain: " ++ chain), none⟩
  | .noHealthy chain =>
    ⟨none, some ("No healthy RPCs available for " ++ chain), none⟩

/-- `resetRPCErrors(chain, connection)`: find the pooled endpoint whose
connection handle is `connId`, zero its error count, mark it healthy and
drop its url from `failedRPCs`. -/
def resetRPCErrors (st : RPCState) (chain : String) (connId : Nat) : RPCState :=
  match lookupA st.connections chain with
  | none => st
  | some conns =>
    match conns.find? (fun c => c.connection == connId) with
    | none => st
    | some rpc =>
      { st with
          connections := setA st.connections chain
            (conns.map fun e =>
              if e.connection = connId then
                { e with errorCount := 0, healthy := true }
              else e),
          failedRPCs := setDelete st.failedRPCs rpc.url }

/-- Outcome of one invocation of the caller-supplied `operation`. -/
inductive OpOut where
  | ok (v : Nat)
  | err (e : JsError)
  deriving Repr, DecidableEq

/-- Observable outcome of a whole `executeWithRetry` call: the returned
value or thrown error (`error none` is JS throwing the undefined
`lastError` when `maxRetries = 0`), the number of times `operation` was
invoked, the total milliseconds slept, the clock on return, the final
manager state, and the connection id of the successful attempt (if any). -/
structure ExecRes where
  result : Except (Option JsError) Nat
  attemptsMade : Nat
  totalSleep : Nat
  finalNow : Nat
  state : RPCState
  succConn : Option Nat
  deriving Repr

/-- The retry loop of `executeWithRetry` (`for attempt = 1 .. maxRetries`).
The operation is modelled as a function of the attempt number and of the
selected connection id.  Each `sleep w` adds `w` to the clock and to the
sleep total.  `gas` is the number of loop iterations still allowed; the
caller maintains `gas = maxRetries + 1 - attempt`, so `gas = 0` is exactly
the loop exit `attempt > maxRetries` (which rethrows `lastErr`). -/
def executeAux (chain : String) (op : Nat → Nat → OpOut) (maxRetries : Nat) :
    Nat → Nat → Option JsError → Nat → Nat → Nat → RPCState → ExecRes
  | 0, _attempt, lastErr, now, sleepAcc, attempts, st =>
    ⟨.error lastErr, attempts, sleepAcc, now, st, none⟩
  | gas + 1, attempt, _lastErr, now, sleepAcc, attempts, st =>
    let outcome : Except JsError (Nat × Nat) × RPCState × Nat :=
      match getBestRPC st chain now with
      | (.error rerr, st1) => (.error (errOfRPCErr rerr), st1, attempts)
      | (.ok sel, st1) =>
        match op attempt sel.connection with
        | .ok v => (.ok (v, sel.connection), st1, attempts + 1)
        | .err e => (.error e, st1, attempts + 1)
    match outcome with
    | (.ok (v, cid), st1, attempts') =>
      ⟨.ok v, attempts', sleepAcc, now, resetRPCErrors st1 chain cid, some cid⟩
    | (.error e, st1, attempts') =>
      if isRateLimitErr e && decide (attempt < maxRetries) then
        let w := rateLimitWait e
        executeAux chain op maxRetries gas (attempt + 1) (some e) (now + w)
          (sleepAcc + w) attempts' st1
      else if isNetworkErr e && decide (attempt < maxRetries) then
        let w := 1000 * attempt
        executeAux chain op maxRetries gas (attempt + 1) (some e) (now + w)
          (sleepAcc + w) attempts' st1
      else if isNonRetryable e then
        ⟨.error (some e), attempts', sleepAcc, now, st1, none⟩
      else if attempt < maxRetries then
        let w := 500 * attempt
        executeAux chain op maxRetries gas (attempt + 1) (some e) (now + w)
          (sleepAcc + w) attempts' st1
      else
        executeAux chain op maxRetries gas (attempt + 1) (some e) now sleepAcc
          attempts' st1

/-- `executeWithRetry(chain, operation, maxRetries)` started at clock `now`:
the loop runs `attempt = 1 .. maxRetries`, so `maxRetries` iterations of
gas. -/
def executeWithRetry (st : RPCState) (chain : String) (op : Nat → Nat → OpOut)
    (maxRetries now : Nat) : ExecRes :=
  executeAux chain op maxRetries maxRetries 1 none now 0 0 st

/-- `this.healthCheckInterval` (2 minutes). -/
def healthCheckInterval : Nat := 120000

/-- One health probe of one endpoint (the body of `performHealthCheck`'s
try/catch for the chosen `activeRPC`): `success` is whether the liveness
call won its 10s timeout race.  Returns the updated endpoint and
`failedRPCs`. -/
def healthCheckStep (e : Endpoint) (failed : List String) (success : Bool) :
    Endpoint × List String :=
  if success then
    ({ e with healthy := true, errorCount := 0 }, setDelete failed e.url)
  else
    let e' := { e with errorCount := e.errorCount + 1 }
    if 5 ≤ e'.errorCount then
      ({ e' with healthy := false }, setAdd failed e'.url)
    else
      (e', failed)

/-- The per-chain part of `performHealthCheck`: probe the first healthy
endpoint, else the first endpoint; skip chains with an empty pool. -/
def healthCheckChain (st : RPCState) (chain : String) (success : Bool) :
    RPCState :=
  match lookupA st.connections chain with
  | none => st
  | some conns =>
    match (conns.find? (fun rpc => rpc.healthy)).orElse (fun _ => conns.head?) with
    | none => st
    | some active =>
      let probe := healthCheckStep active st.failedRPCs success
      { st with
          failedRPCs := probe.2,
          connections := setA st.connections chain
            (conns.map fun e =>
              if e.connection = active.connection then probe.1 else e) }

/-- `performHealthCheck()` at clock `now`: debounced to half the check
interval, then one probe per configured chain; `outcomes` gives each
chain's probe result. -/
def performHealthCheck (st : RPCState) (now : Nat)
    (outcomes : String → Bool) : RPCState :=
  if now - st.lastHealthCheck < healthCheckInterval / 2 then st
  else
    (st.connections.map Prod.fst).foldl
      (fun acc chain => healthCheckChain acc chain (outcomes chain))
      { st with lastHealthCheck := now }

/-- `removeRPC(chain, url)`: drop the url's descriptor from the static
configuration and delete the url from `failedRPCs`; a no-op when the chain
has no configuration entry. -/
def removeRPC (st : RPCState) (chain url : String) : RPCState :=
  match lookupA st.rpcConfigs chain with
  | none => st
  | some cfgs =>
    { st with
        rpcConfigs := setA st.rpcConfigs chain
          (cfgs.filter (fun rpc => rpc.url ≠ url)),
        failedRPCs := setDelete st.failedRPCs url }

/-- The results of a sequence of `getBestRPC(chain)` calls issued at the
given clock times, threading the manager state. -/
def selections (st : RPCState) (chain : String) :
    List Nat → List (Except RPCErr Endpoint)
  | [] => []
  | t :: ts =>
    let r := getBestRPC st chain t
    r.1 :: selections r.2 chain ts

/-- Every pooled endpoint of `chain` carrying url `u` has capacity `cap`
(trivially true in real states, where urls are unique per pool). -/
def capAt (st : RPCState) (chain u : String) (cap : Nat) : Prop :=
  ∀ conns, lookupA st.connections chain = some conns →
    ∀ e ∈ conns, e.url = u → e.maxRequestsPerSecond = cap

/-- All calls of the trace succeed and select an endpoint with url `u`. -/
def allSelectU (st : RPCState) (chain u : String) (ts : List Nat) : Bool :=
  (selections st chain ts).all
    (fun res => match res with
      | .ok e => e.url == u
      | .error _ => false)

/-! ### Concrete states used to exercise the model -/

/-- A fresh healthy endpoint as built by `initialize` for the default
solana configuration (capacity 5, priority 1). -/
def wEndpoint : Endpoint := ⟨"u", 1, 5, 7, true, 0, 0, 0⟩

/-- A freshly initialized manager with one solana endpoint. -/
def wState : RPCState :=
  ⟨true, [], [("solana", [wEndpoint])], [("u", ⟨0, 0⟩)],
   [("solana", [⟨"u", 1, 5⟩])], 0⟩

/-- Like `wState` but the endpoint has accumulated errors and sits in the
failed set. -/
def wStateErr : RPCState :=
  ⟨true, ["u"], [("solana", [⟨"u", 1, 5, 7, true, 0, 0, 3⟩])],
   [("u", ⟨0, 0⟩)], [], 0⟩

/-- A manager whose `initialize` failed (`initialized = false`). -/
def wStateNoInit : RPCState :=
  ⟨false, [], [("solana", [wEndpoint])], [], [], 0⟩

/-- Two chains sharing the process-wide failed set: solana's whole pool is
failed, and ethereum's endpoint url `"v"` is also in the set. -/
def wStateFailed : RPCState :=
  ⟨true, ["u", "v"],
   [("solana", [wEndpoint]), ("ethereum", [⟨"v", 1, 5, 8, true, 0, 0, 0⟩])],
   [("u", ⟨0, 0⟩), ("v", ⟨0, 0⟩)], [("solana", [⟨"u", 1, 5⟩])], 0⟩

/-- Two healthy ethereum endpoints with distinct priorities. -/
def wEndpointA : Endpoint := ⟨"a", 2, 5, 1, true, 0, 0, 0⟩

/-- See `wEndpointA`. -/
def wEndpointB : Endpoint := ⟨"b", 1, 5, 2, true, 0, 0, 0⟩

/-- A manager with the two-endpoint ethereum pool. -/
def wStateP : RPCState :=
  ⟨true, [], [("ethereum", [wEndpointA, wEndpointB])],
   [("a", ⟨0, 0⟩), ("b", ⟨0, 0⟩)], [], 0⟩

/-- A plain rate-limit error. -/
def wErrRL : JsError := ⟨none, some "rate limit", none⟩

/-- An error that is both validation-style and rate-limit-style. -/
def wErrInvRL : JsError := ⟨none, some "Invalid rate limit", none⟩

/-- A pure validation error. -/
def wErrInv : JsError := ⟨none, some "Invalid address", none⟩

/-- An operation that always succeeds with 42. -/
def wOpOk : Nat → Nat → OpOut := fun _ _ => .ok 42

/-! ### Basic lemmas about the container helpers -/

theorem lookupA_setA {α : Type} (l : List (String × α)) (k k' : String)
    (v : α) :
    lookupA (setA l k v) k' = if k = k' then some v else lookupA l k' := by
  induction l with
  | nil => by_cases hkk : k = k' <;> simp [setA, lookupA, hkk]
  | cons hd tl ih =>
    obtain ⟨k0, v0⟩ := hd
    by_cases h : k0 = k
    · subst h
      by_cases hkk : k0 = k' <;> simp [setA, lookupA, hkk]
    · by_cases hkk : k0 = k'
      · subst hkk
        have hne : k ≠ k0 := fun hc => h hc.symm
        simp [setA, lookupA, h, hne]
      · simp [setA, lookupA, h, hkk, ih]

theorem not_mem_setDelete (l : List String) (u : String) :
    u ∉ setDelete l u := by
  simp [setDelete, List.mem_filter]

theorem mem_setDelete_of_ne (l : List String) (u x : String) (hx : x ≠ u) :
    x ∈ setDelete l u ↔ x ∈ l := by
  simp [setDelete, List.mem_filter, hx]

theorem contains_setDelete_self (l : List String) (u : String) :
    (setDelete l u).contains u = false := by
  simpa using not_mem_setDelete l u

theorem mem_setAdd (l : List String) (u x : String) :
    x ∈ setAdd l u ↔ x ∈ l ∨ x = u := by
  unfold setAdd
  split
  · rename_i hc
    have hm : u ∈ l := by simpa using hc
    constructor
    · exact Or.inl
    · rintro (hx | rfl)
      · exact hx
      · exact hm
  · simp

theorem rateLimitWait_bounds (e : JsError) :
    5000 ≤ rateLimitWait e ∧ rateLimitWait e ≤ 60000 := by
  unfold rateLimitWait
  omega

theorem mem_insertLE {α : Type} (le : α → α → Bool) (x a : α)
    (l : List α) : a ∈ insertLE le x l ↔ a = x ∨ a ∈ l := by
  induction l with
  | nil => simp [insertLE]
  | cons b rest ih =>
    unfold insertLE
    split
    · simp
    · simp only [List.mem_cons, ih]
      tauto

theorem mem_sortLE {α : Type} (le : α → α → Bool) (a : α) (l : List α) :
    a ∈ sortLE le l ↔ a ∈ l := by
  induction l with
  | nil => simp [sortLE]
  | cons b rest ih => simp [sortLE, mem_insertLE, ih]

/-! ### Frame and membership lemmas for endpoint selection -/

theorem canMakeRequest_frames (st : RPCState) (url : String)
    (cap now : Nat) :
    (canMakeRequest st url cap now).2.initialized = st.initialized ∧
    (canMakeRequest st url cap now).2.failedRPCs = st.failedRPCs ∧
    (canMakeRequest st url cap now).2.connections = st.connections ∧
    (canMakeRequest st url cap now).2.rpcConfigs = st.rpcConfigs ∧
    (canMakeRequest st url cap now).2.lastHealthCheck = st.lastHealthCheck := by
  unfold canMakeRequest
  cases lookupA st.requestCounters url <;> simp
  split <;> simp

theorem filterHealthy_frames (now : Nat) (conns : List Endpoint)
    (st : RPCState) :
    (filterHealthy now st conns).2.initialized = st.initialized ∧
    (filterHealthy now st conns).2.failedRPCs = st.failedRPCs ∧
    (filterHealthy now st conns).2.connections = st.connections ∧
    (filterHealthy now st conns).2.rpcConfigs = st.rpcConfigs ∧
    (filterHealthy now st conns).2.lastHealthCheck = st.lastHealthCheck := by
  induction conns generalizing st with
  | nil => simp [filterHealthy]
  | cons e rest ih =>
    unfold filterHealthy
    split
    · have hc := canMakeRequest_frames st e.url e.maxRequestsPerSecond now
      have hr := ih (canMakeRequest st e.url e.maxRequestsPerSecond now).2
      exact ⟨hr.1.trans hc.1, hr.2.1.trans hc.2.1, hr.2.2.1.trans hc.2.2.1,
        hr.2.2.2.1.trans hc.2.2.2.1, hr.2.2.2.2.trans hc.2.2.2.2⟩
    · exact ih st

theorem filterHealthy_mem (now : Nat) (conns : List Endpoint)
    (st : RPCState) (e : Endpoint)
    (he : e ∈ (filterHealthy now st conns).1) : e ∈ conns := by
  induction conns generalizing st with
  | nil => simp [filterHealthy] at he
  | cons c rest ih =>
    rw [filterHealthy] at he
    simp only at he
    revert he
    split
    · split
      · intro he
        rcases List.mem_cons.mp he with h | h
        · exact h ▸ List.mem_cons_self c rest
        · exact List.mem_cons_of_mem c (ih _ h)
      · intro he
        exact List.mem_cons_of_mem c (ih _ he)
    · intro he
      exact List.mem_cons_of_mem c (ih _ he)

theorem sortLE_single {α : Type} (le : α → α → Bool) (a : α) :
    sortLE le [a] = [a] := rfl

theorem lookupA_updateRequestCounter (st : RPCState) (u u' : String) :
    lookupA (updateRequestCounter st u).requestCounters u' =
      match lookupA st.requestCounters u with
      | none => lookupA st.requestCounters u'
      | some ctr =>
        if u = u' then some ⟨ctr.count + 1, ctr.lastReset⟩
        else lookupA st.requestCounters u' := by
  unfold updateRequestCounter
  cases h : lookupA st.requestCounters u <;> simp [lookupA_setA, h]

theorem updateRequestCounter_frames (st : RPCState) (url : String) :
    (updateRequestCounter st url).initialized = st.initialized ∧
    (updateRequestCounter st url).failedRPCs = st.failedRPCs ∧
    (updateRequestCounter st url).connections = st.connections ∧
    (updateRequestCounter st url).rpcConfigs = st.rpcConfigs ∧
    (updateRequestCounter st url).lastHealthCheck = st.lastHealthCheck := by
  unfold updateRequestCounter
  cases lookupA st.requestCounters url <;> simp

/-- Unfolding `getBestRPC` on the path where the filtered candidate list is
non-empty: the head of the sorted candidates is selected, its usage stats
updated in the pool, and its rate counter incremented. -/
theorem getBestRPC_select (st : RPCState) (chain : String) (now : Nat)
    (conns : List Endpoint) (c sel : Endpoint) (cs rest : List Endpoint)
    (stf : RPCState)
    (hinit : st.initialized = true)
    (hconns : lookupA st.connections chain = some conns)
    (hfil : filterHealthy now st conns = (c :: cs, stf))
    (hsort : sortLE rpcLE (c :: cs) = sel :: rest) :
    getBestRPC st chain now =
      (.ok (markSelected now sel),
       updateRequestCounter
         { stf with
             connections := setA stf.connections chain
               (conns.map fun e =>
                 if e.connection = sel.connection then markSelected now e
                 else e) }
         sel.url) := by
  unfold getBestRPC getBestRPCAux
  rw [hinit, hconns]
  simp only [Bool.not_true, Bool.false_eq_true, if_false, hfil, hsort]

/-- `getBestRPC` on a one-endpoint pool whose endpoint is healthy, not
failed, and admitted by its rate counter: the endpoint is selected, and the
final counter entry for its url has a `lastReset` no later than `now`. -/
theorem getBestRPC_singleton (st : RPCState) (chain : String) (now : Nat)
    (e : Endpoint) (c r : Nat)
    (hinit : st.initialized = true)
    (hpool : lookupA st.connections chain = some [e])
    (hh : e.healthy = true)
    (hnf : st.failedRPCs.contains e.url = false)
    (hctr : lookupA st.requestCounters e.url = some ⟨c, r⟩)
    (hr : r ≤ now)
    (hsel : 1000 ≤ now - r ∨ c < safeLimit e.maxRequestsPerSecond) :
    ∃ st' c' r',
      getBestRPC st chain now = (.ok (markSelected now e), st') ∧
      st'.initialized = true ∧
      lookupA st'.connections chain = some [markSelected now e] ∧
      st'.failedRPCs = st.failedRPCs ∧
      lookupA st'.requestCounters e.url = some ⟨c', r'⟩ ∧
      r' ≤ now := by
  by_cases hreset : 1000 ≤ now - r
  · have hcan : canMakeRequest st e.url e.maxRequestsPerSecond now =
        (true, { st with
                   requestCounters := setA st.requestCounters e.url ⟨0, now⟩ }) := by
      unfold canMakeRequest
      rw [hctr]
      simp [hreset]
    have hfil : filterHealthy now st [e] =
        ([e], { st with
                  requestCounters := setA st.requestCounters e.url ⟨0, now⟩ }) := by
      rw [filterHealthy]
      simp only [hh, hnf, Bool.not_false, Bool.and_self, if_true, hcan,
        filterHealthy]
    have hmain := getBestRPC_select st chain now [e] e e [] []
      { st with requestCounters := setA st.requestCounters e.url ⟨0, now⟩ }
      hinit hpool hfil (sortLE_single rpcLE e)
    have hmain2 : getBestRPC st chain now =
        (.ok (markSelected now e),
         updateRequestCounter
           { st with
               requestCounters := setA st.requestCounters e.url ⟨0, now⟩,
               connections :=
                 setA st.connections chain [markSelected now e] }
           e.url) := by
      rw [hmain]
      simp
    have hlook : lookupA
        ({ st with
            requestCounters := setA st.requestCounters e.url ⟨0, now⟩,
            connections :=
              setA st.connections chain [markSelected now e] } :
          RPCState).requestCounters e.url = some ⟨0, now⟩ := by
      rw [lookupA_setA]
      simp
    refine ⟨_, 1, now, hmain2, ?_, ?_, ?_, ?_, le_refl now⟩
    · rw [(updateRequestCounter_frames _ _).1]
      exact hinit
    · rw [(updateRequestCounter_frames _ _).2.2.1]
      rw [lookupA_setA]
      simp
    · rw [(updateRequestCounter_frames _ _).2.1]
    · rw [lookupA_updateRequestCounter, hlook]
      simp
  · have hlt : c < safeLimit e.maxRequestsPerSecond := by
      rcases hsel with h | h
      · exact absurd h hreset
      · exact h
    have hcan : canMakeRequest st e.url e.maxRequestsPerSecond now =
        (true, st) := by
      unfold canMakeRequest
      rw [hctr]
      simp [hreset, hlt]
    have hfil : filterHealthy now st [e] = ([e], st) := by
      rw [filterHealthy]
      simp only [hh, hnf, Bool.not_false, Bool.and_self, if_true, hcan,
        filterHealthy]
    have hmain := getBestRPC_select st chain now [e] e e [] [] st
      hinit hpool hfil (sortLE_single rpcLE e)
    have hmain2 : getBestRPC st chain now =
        (.ok (markSelected now e),
         updateRequestCounter
           { st with
               connections :=
                 setA st.connections chain [markSelected now e] }
           e.url) := by
      rw [hmain]
      simp
    have hlook : lookupA
        ({ st with
            connections :=
              setA st.connections chain [markSelected now e] } :
          RPCState).requestCounters e.url = some ⟨c, r⟩ := hctr
    refine ⟨_, c + 1, r, hmain2, ?_, ?_, ?_, ?_, hr⟩
    · rw [(updateRequestCounter_frames _ _).1]
      exact hinit
    · rw [(updateRequestCounter_frames _ _).2.2.1]
      rw [lookupA_setA]
      simp
    · rw [(updateRequestCounter_frames _ _).2.1]
    · rw [lookupA_updateRequestCounter, hlook]
      simp

/-! ### Claim C10: uninitialized manager / unknown chain -/

/-- C10: whenever the manager's `initialized` flag is false, or the chain
has no pool in the live connection map, `getBestRPC` throws the
`RPC Manager not initialized for chain` error — a failure distinct from the
no-healthy-endpoint error — and leaves the whole state (rate counters,
endpoint counters, failed set) untouched. -/
theorem getBestRPC_uninitialized (st : RPCState) (chain : String) (now : Nat)
    (h : st.initialized = false ∨ lookupA st.connections chain = none) :
    getBestRPC st chain now = (.error (.notInitialized chain), st) ∧
    (∀ c' : String, (RPCErr.notInitialized chain) ≠ RPCErr.noHealthy c') := by
  constructor
  · unfold getBestRPC getBestRPCAux
    rcases h with h | h
    · simp [h]
    · cases hi : st.initialized
      · simp [hi]
      · simp [hi, h]
  · intro c' hc
    simp at hc

/-- Witness for C10 on a concrete uninitialized manager. -/
theorem getBestRPC_uninitialized_witness :
    getBestRPC wStateNoInit "solana" 0 =
      (.error (.notInitialized "solana"), wStateNoInit) ∧
    (∀ c' : String, (RPCErr.notInitialized "solana") ≠ RPCErr.noHealthy c') :=
  getBestRPC_uninitialized wStateNoInit "solana" 0 (Or.inl rfl)

/-! ### Claim C5: health-check hysteresis -/

/-- C5: a health-check failure neither flips `healthy` to false nor adds
the url to the failed set while the accumulated `errorCount` stays below 5;
and a single failure followed by a success keeps the endpoint healthy
throughout, the success resetting `errorCount` to 0 and removing the url
from the failed set. -/
theorem health_hysteresis (e : Endpoint) (failed : List String) :
    (e.errorCount + 1 < 5 →
      (healthCheckStep e failed false).1.healthy = e.healthy ∧
      (healthCheckStep e failed false).2 = failed) ∧
    (e.errorCount = 0 → e.healthy = true →
      (healthCheckStep e failed false).1.healthy = true ∧
      (healthCheckStep (healthCheckStep e failed false).1
          (healthCheckStep e failed false).2 true).1.healthy = true ∧
      (healthCheckStep (healthCheckStep e failed false).1
          (healthCheckStep e failed false).2 true).1.errorCount = 0 ∧
      (healthCheckStep (healthCheckStep e failed false).1
          (healthCheckStep e failed false).2 true).1.url ∉
        (healthCheckStep (healthCheckStep e failed false).1
            (healthCheckStep e failed false).2 true).2) := by
  constructor
  · intro h5
    have hn : ¬ 5 ≤ e.errorCount + 1 := by omega
    simp [healthCheckStep, hn]
  · intro h0 hh
    have hn : ¬ 5 ≤ e.errorCount + 1 := by omega
    refine ⟨?_, ?_, ?_, ?_⟩
    · simp [healthCheckStep, hn, hh]
    · simp [healthCheckStep, hn]
    · simp [healthCheckStep, hn]
    · simp only [healthCheckStep, hn, if_false, if_true]
      exact not_mem_setDelete failed _

/-- Witness for C5 on a concrete endpoint at `errorCount` 0. -/
theorem health_hysteresis_witness :
    ((healthCheckStep wEndpoint ["x"] false).1.healthy = wEndpoint.healthy ∧
     (healthCheckStep wEndpoint ["x"] false).2 = ["x"]) ∧
    ((healthCheckStep wEndpoint ["x"] false).1.healthy = true ∧
     (healthCheckStep (healthCheckStep wEndpoint ["x"] false).1
         (healthCheckStep wEndpoint ["x"] false).2 true).1.healthy = true ∧
     (healthCheckStep (healthCheckStep wEndpoint ["x"] false).1
         (healthCheckStep wEndpoint ["x"] false).2 true).1.errorCount = 0 ∧
     (healthCheckStep (healthCheckStep wEndpoint ["x"] false).1
         (healthCheckStep wEndpoint ["x"] false).2 true).1.url ∉
       (healthCheckStep (healthCheckStep wEndpoint ["x"] false).1
           (healthCheckStep wEndpoint ["x"] false).2 true).2) :=
  ⟨(health_hysteresis wEndpoint ["x"]).1 (by decide),
   (health_hysteresis wEndpoint ["x"]).2 rfl rfl⟩

/-! ### Claim C8: removeRPC leaves the live pool intact -/

/-- C8: `removeRPC(chain, url)` mutates only the static configuration and
the failed set (deleting the url from it); the live pool, the rate
counters, and the `initialized` flag are unchanged, so an
already-initialized endpoint with that url remains selectable by
`getBestRPC` afterwards. -/
theorem removeRPC_pool_frame (st : RPCState) (chain u : String) :
    (removeRPC st chain u).connections = st.connections ∧
    (removeRPC st chain u).requestCounters = st.requestCounters ∧
    (removeRPC st chain u).initialized = st.initialized ∧
    (lookupA st.rpcConfigs chain ≠ none →
      u ∉ (removeRPC st chain u).failedRPCs) ∧
    (∀ (e : Endpoint) (c r now : Nat) (cfgs : List RPCConfig),
      st.initialized = true →
      lookupA st.connections chain = some [e] →
      e.url = u →
      e.healthy = true →
      lookupA st.requestCounters u = some ⟨c, r⟩ →
      r ≤ now → 1000 ≤ now - r →
      lookupA st.rpcConfigs chain = some cfgs →
      (getBestRPC (removeRPC st chain u) chain now).1 =
        .ok (markSelected now e)) := by
  refine ⟨?_, ?_, ?_, ?_, ?_⟩
  · unfold removeRPC
    cases lookupA st.rpcConfigs chain <;> simp
  · unfold removeRPC
    cases lookupA st.rpcConfigs chain <;> simp
  · unfold removeRPC
    cases lookupA st.rpcConfigs chain <;> simp
  · intro hc
    unfold removeRPC
    cases hcfg : lookupA st.rpcConfigs chain
    · exact absurd hcfg hc
    · exact not_mem_setDelete _ u
  · intro e c r now cfgs hinit hconns hurl hh hctr hr hres hcfg
    have hrm : removeRPC st chain u =
        { st with
            rpcConfigs := setA st.rpcConfigs chain
              (cfgs.filter (fun rpc => rpc.url ≠ u)),
            failedRPCs := setDelete st.failedRPCs u } := by
      unfold removeRPC
      rw [hcfg]
    obtain ⟨st', c', r', heq, -, -, -, -, -⟩ :=
      getBestRPC_singleton (removeRPC st chain u) chain now e c r
        (by rw [hrm]; exact hinit)
        (by rw [hrm]; exact hconns)
        hh
        (by rw [hrm, hurl]; exact contains_setDelete_self _ u)
        (by rw [hrm, hurl]; exact hctr)
        hr (Or.inl hres)
    rw [heq]

/-- Witness for C8: after `removeRPC`, the previously-failed concrete
endpoint is still in the live pool and gets selected. -/
theorem removeRPC_pool_frame_witness :
    (removeRPC wStateFailed "solana" "u").connections =
      wStateFailed.connections ∧
    "u" ∉ (removeRPC wStateFailed "solana" "u").failedRPCs ∧
    (getBestRPC (removeRPC wStateFailed "solana" "u") "solana" 2000).1 =
      .ok (markSelected 2000 wEndpoint) :=
  have h := removeRPC_pool_frame wStateFailed "solana" "u"
  ⟨h.1, h.2.2.2.1 (by decide),
   h.2.2.2.2 wEndpoint 0 0 2000 [⟨"u", 1, 5⟩] rfl rfl rfl rfl rfl
     (Nat.zero_le 2000) (by decide) rfl⟩

/-! ### Unfolding and invariance lemmas for the circuit breaker -/

theorem insertLE_ne_nil {α : Type} (le : α → α → Bool) (a : α)
    (l : List α) : insertLE le a l ≠ [] := by
  cases l
  · simp [insertLE]
  · unfold insertLE
    split <;> simp

theorem sortLE_ne_nil {α : Type} (le : α → α → Bool) (a : α) (l : List α) :
    sortLE le (a :: l) ≠ [] := by
  unfold sortLE
  exact insertLE_ne_nil le a (sortLE le l)

/-- One unfolding step of `getBestRPCAux` (definitional). -/
theorem getBestRPCAux_step (fuel : Nat) (st : RPCState) (chain : String)
    (now : Nat) :
    getBestRPCAux (fuel + 1) st chain now =
      (if !st.initialized then (.error (.notInitialized chain), st)
       else
         match lookupA st.connections chain with
         | none => (.error (.notInitialized chain), st)
         | some conns =>
           let filt := filterHealthy now st conns
           match filt.1 with
           | [] =>
             if conns.length ≤ filt.2.failedRPCs.length then
               getBestRPCAux fuel { filt.2 with failedRPCs := [] } chain now
             else
               (.error (.noHealthy chain), filt.2)
           | c :: cs =>
             match sortLE rpcLE (c :: cs) with
             | [] => (.error (.noHealthy chain), filt.2)
             | sel :: _ =>
               let conns' := conns.map fun e =>
                 if e.connection = sel.connection then markSelected now e
                 else e
               let st' := { filt.2 with
                            connections := setA filt.2.connections chain conns' }
               (.ok (markSelected now sel), updateRequestCounter st' sel.url)) :=
  rfl

/-- `getBestRPC` is the fuel-2 run of the auxiliary function. -/
theorem getBestRPC_eq (st : RPCState) (chain : String) (now : Nat) :
    getBestRPC st chain now = getBestRPCAux (1 + 1) st chain now := rfl

/-- `getBestRPCAux` either keeps `failedRPCs` intact or (after a
circuit-breaker clear) ends with it empty: it never adds to it. -/
theorem getBestRPCAux_failedRPCs (chain : String) (now : Nat) :
    ∀ (fuel : Nat) (st : RPCState),
      ((getBestRPCAux fuel st chain now).2).failedRPCs = st.failedRPCs ∨
      ((getBestRPCAux fuel st chain now).2).failedRPCs = [] := by
  intro fuel
  induction fuel with
  | zero => intro st; exact Or.inl rfl
  | succ fuel ih =>
    intro st
    rw [getBestRPCAux_step]
    cases hi : st.initialized
    · simp [hi]
    · simp only [hi, Bool.not_true, Bool.false_eq_true, if_false]
      cases hc : lookupA st.connections chain
      · exact Or.inl rfl
      · rename_i conns
        simp only
        cases hf : (filterHealthy now st conns).1
        · simp only
          split
          · rcases ih { (filterHealthy now st conns).2 with failedRPCs := [] }
              with h | h
            · exact Or.inr h
            · exact Or.inr h
          · exact Or.inl (filterHealthy_frames now conns st).2.1
        · rename_i c cs
          simp only
          cases hs : sortLE rpcLE (c :: cs)
          · exact Or.inl (filterHealthy_frames now conns st).2.1
          · rename_i sel rest
            simp only
            refine Or.inl ?_
            rw [(updateRequestCounter_frames _ _).2.1]
            exact (filterHealthy_frames now conns st).2.1

/-- On the circuit-breaker path (`no candidates and
failedRPCs.size >= pool.length`), `getBestRPC` clears the failed set and
re-runs the selection once. -/
theorem getBestRPC_breaker (st : RPCState) (chain : String) (now : Nat)
    (conns : List Endpoint) (stf : RPCState)
    (hinit : st.initialized = true)
    (hconns : lookupA st.connections chain = some conns)
    (hfil : filterHealthy now st conns = ([], stf))
    (hsize : conns.length ≤ st.failedRPCs.length) :
    getBestRPC st chain now =
      getBestRPCAux 1 { stf with failedRPCs := [] } chain now := by
  have hfr : stf.failedRPCs = st.failedRPCs := by
    have h := (filterHealthy_frames now conns st).2.1
    rw [hfil] at h
    exact h
  rw [getBestRPC_eq, getBestRPCAux_step]
  simp only [hinit, Bool.not_true, Bool.false_eq_true, if_false, hconns,
    hfil]
  rw [if_pos (by rw [hfr]; exact hsize)]

/-- When the failed set is smaller than the pool, the breaker cannot fire:
an empty candidate list yields the no-healthy error directly, a non-empty
one yields a selection, and the not-initialized error is impossible. -/
theorem getBestRPCAux_no_breaker (fuel : Nat) (st : RPCState)
    (chain : String) (now : Nat) (conns : List Endpoint)
    (hinit : st.initialized = true)
    (hconns : lookupA st.connections chain = some conns)
    (hsmall : st.failedRPCs.length < conns.length) :
    ((getBestRPCAux (fuel + 1) st chain now).1 = .error (.noHealthy chain) ↔
      (filterHealthy now st conns).1 = []) ∧
    (∀ c' : String,
      (getBestRPCAux (fuel + 1) st chain now).1 ≠
        .error (.notInitialized c')) := by
  have hfr : (filterHealthy now st conns).2.failedRPCs = st.failedRPCs :=
    (filterHealthy_frames now conns st).2.1
  rw [getBestRPCAux_step]
  simp only [hinit, Bool.not_true, Bool.false_eq_true, if_false, hconns]
  cases hf : (filterHealthy now st conns).1
  · simp only [hf]
    rw [if_neg (by rw [hfr]; omega)]
    simp
  · rename_i c cs
    simp only [hf]
    cases hs : sortLE rpcLE (c :: cs)
    · exact absurd hs (sortLE_ne_nil rpcLE c cs)
    · rename_i sel rest
      simp

/-! ### Claim C9: the failed set is process-wide -/

/-- C9: the failed set is one global set: the breaker guard in
`getBestRPC(chain)` compares that set's size with the requested chain's
pool length (result error with the set untouched when it is smaller), and
when the guard fires the subsequent state has an entirely empty failed set,
dropping failure markings for every chain's urls. -/
theorem failedSet_global (st : RPCState) (chain : String) (now : Nat)
    (conns : List Endpoint) (stf : RPCState)
    (hinit : st.initialized = true)
    (hconns : lookupA st.connections chain = some conns)
    (hfil : filterHealthy now st conns = ([], stf)) :
    (conns.length ≤ st.failedRPCs.length →
      ∀ u : String, u ∉ ((getBestRPC st chain now).2).failedRPCs) ∧
    (st.failedRPCs.length < conns.length →
      getBestRPC st chain now = (.error (.noHealthy chain), stf)) := by
  have hfr : stf.failedRPCs = st.failedRPCs := by
    have h := (filterHealthy_frames now conns st).2.1
    rw [hfil] at h
    exact h
  constructor
  · intro hsize u
    rw [getBestRPC_breaker st chain now conns stf hinit hconns hfil hsize]
    rcases getBestRPCAux_failedRPCs chain now 1
        { stf with failedRPCs := [] } with h | h
    · rw [h]
      simp
    · rw [h]
      simp
  · intro hsize
    rw [getBestRPC_eq, getBestRPCAux_step]
    simp only [hinit, Bool.not_true, Bool.false_eq_true, if_false, hconns,
      hfil]
    rw [if_neg (by rw [hfr]; omega)]

/-- Witness for C9 on a concrete two-chain state: solana's pool is wholly
failed, and the breaker fired by a solana call also clears ethereum's
failed url `"v"`; with a larger pool the error path leaves the set alone. -/
theorem failedSet_global_witness :
    ("v" ∉ ((getBestRPC wStateFailed "solana" 500).2).failedRPCs ∧
     "u" ∉ ((getBestRPC wStateFailed "solana" 500).2).failedRPCs) ∧
    (1 ≤ wStateFailed.failedRPCs.length) :=
  have h := failedSet_global wStateFailed "solana" 500 [wEndpoint]
    wStateFailed rfl rfl (by decide)
  ⟨⟨h.1 (by decide) "v", h.1 (by decide) "u"⟩, by decide⟩

/-! ### Claim C3: one-shot circuit breaker -/

/-- C3: when a chain's candidate filter comes back empty and the failed set
is at least as large as the pool, `getBestRPC` clears the failed set
entirely and retries the selection exactly once: the state it ends in has
an empty failed set, it raises the no-healthy error exactly when the
retried filter still finds no candidate, and it never turns this into the
not-initialized error. -/
theorem circuit_breaker_retry (st : RPCState) (chain : String) (now : Nat)
    (conns : List Endpoint) (stf : RPCState)
    (hne : conns ≠ [])
    (hinit : st.initialized = true)
    (hconns : lookupA st.connections chain = some conns)
    (hfil : filterHealthy now st conns = ([], stf))
    (hsize : conns.length ≤ st.failedRPCs.length) :
    ((getBestRPC st chain now).2).failedRPCs = [] ∧
    ((getBestRPC st chain now).1 = .error (.noHealthy chain) ↔
      (filterHealthy now { stf with failedRPCs := [] } conns).1 = []) ∧
    (∀ c' : String,
      (getBestRPC st chain now).1 ≠ .error (.notInitialized c')) := by
  have hfr := filterHealthy_frames now conns st
  have hbrk := getBestRPC_breaker st chain now conns stf hinit hconns hfil
    hsize
  have hinit2 : ({ stf with failedRPCs := [] } : RPCState).initialized =
      true := by
    have h := hfr.1
    rw [hfil] at h
    simp only
    rw [h]
    exact hinit
  have hconns2 : lookupA
      ({ stf with failedRPCs := [] } : RPCState).connections chain =
      some conns := by
    have h := hfr.2.2.1
    rw [hfil] at h
    simp only
    rw [h]
    exact hconns
  have hsmall2 : ({ stf with failedRPCs := [] } : RPCState).failedRPCs.length
      < conns.length := by
    simp only [List.length_nil]
    exact List.length_pos.mpr hne
  have hnb := getBestRPCAux_no_breaker 0 { stf with failedRPCs := [] }
    chain now conns hinit2 hconns2 hsmall2
  refine ⟨?_, ?_, ?_⟩
  · rw [hbrk]
    rcases getBestRPCAux_failedRPCs chain now 1
        { stf with failedRPCs := [] } with h | h
    · exact h
    · exact h
  · rw [hbrk]
    exact hnb.1
  · rw [hbrk]
    exact hnb.2

/-- Witness for C3: the concrete wholly-failed solana pool recovers through
the breaker (the retried filter is non-empty, so no error is raised). -/
theorem circuit_breaker_retry_witness :
    ((getBestRPC wStateFailed "solana" 500).2).failedRPCs = [] ∧
    ¬ ((getBestRPC wStateFailed "solana" 500).1 =
        .error (.noHealthy "solana")) :=
  have h := circuit_breaker_retry wStateFailed "solana" 500 [wEndpoint]
    wStateFailed (by decide) rfl rfl rfl (by decide)
  ⟨h.1, fun hc => by
    have h2 := h.2.1.mp hc
    revert h2
    decide⟩

/-! ### Claim C7: priority-first selection -/

theorem sortLE_pair_lt (e1 e2 : Endpoint) (hp : e1.priority < e2.priority) :
    sortLE rpcLE [e1, e2] = [e1, e2] ∧ sortLE rpcLE [e2, e1] = [e1, e2] := by
  have h12 : rpcLE e1 e2 = true := by
    unfold rpcLE
    rw [if_neg (by omega)]
    simp [hp]
  have h21 : rpcLE e2 e1 = false := by
    unfold rpcLE
    rw [if_neg (by omega)]
    simp
    omega
  constructor
  · simp [sortLE, insertLE, h12]
  · simp [sortLE, insertLE, h21]

/-- C7: when the candidate list consists of two endpoints with priorities
`p1 < p2` and equal request counts (in either pool order), `getBestRPC`
returns the `p1` endpoint — candidates are sorted by priority then request
count and the head is picked — and the selection bumps that endpoint's
`requestCount`, stamps its `lastUsed` with the current time (both visible
in the returned record and in the pool), and increments its rate
counter. -/
theorem priority_selection (st : RPCState) (chain : String) (now : Nat)
    (conns : List Endpoint) (stf : RPCState) (e1 e2 : Endpoint)
    (hinit : st.initialized = true)
    (hconns : lookupA st.connections chain = some conns)
    (hfil : filterHealthy now st conns = ([e1, e2], stf) ∨
            filterHealthy now st conns = ([e2, e1], stf))
    (hp : e1.priority < e2.priority)
    (hrc : e1.requestCount = e2.requestCount) :
    (getBestRPC st chain now).1 = .ok (markSelected now e1) ∧
    (∃ pool', lookupA ((getBestRPC st chain now).2).connections chain =
        some pool' ∧ markSelected now e1 ∈ pool') ∧
    lookupA ((getBestRPC st chain now).2).requestCounters e1.url =
      (lookupA stf.requestCounters e1.url).map
        (fun ctr => Counter.mk (ctr.count + 1) ctr.lastReset) := by
  have hsp := sortLE_pair_lt e1 e2 hp
  have hmain : getBestRPC st chain now =
      (.ok (markSelected now e1),
       updateRequestCounter
         { stf with
             connections := setA stf.connections chain
               (conns.map fun e =>
                 if e.connection = e1.connection then markSelected now e
                 else e) }
         e1.url) := by
    rcases hfil with hfil | hfil
    · exact getBestRPC_select st chain now conns e1 e1 [e2] [e2] stf hinit
        hconns hfil hsp.1
    · exact getBestRPC_select st chain now conns e2 e1 [e1] [e2] stf hinit
        hconns hfil hsp.2
  have he1mem : e1 ∈ conns := by
    rcases hfil with hfil | hfil
    · exact filterHealthy_mem now conns st e1 (by rw [hfil]; simp)
    · exact filterHealthy_mem now conns st e1 (by rw [hfil]; simp)
  refine ⟨?_, ?_, ?_⟩
  · rw [hmain]
  · rw [hmain]
    refine ⟨conns.map (fun e =>
      if e.connection = e1.connection then markSelected now e else e),
      ?_, ?_⟩
    · rw [(updateRequestCounter_frames _ _).2.2.1]
      rw [lookupA_setA]
      simp
    · exact List.mem_map.mpr ⟨e1, he1mem, by simp⟩
  · rw [hmain]
    rw [lookupA_updateRequestCounter]
    cases hctr : lookupA stf.requestCounters e1.url
    · simp [hctr]
    · simp [hctr]

/-- Witness for C7 on the concrete two-endpoint ethereum pool (pool order
has the priority-2 endpoint first). -/
theorem priority_selection_witness :
    (getBestRPC wStateP "ethereum" 500).1 =
      .ok (markSelected 500 wEndpointB) ∧
    (∃ pool', lookupA ((getBestRPC wStateP "ethereum" 500).2).connections
        "ethereum" = some pool' ∧ markSelected 500 wEndpointB ∈ pool') ∧
    lookupA ((getBestRPC wStateP "ethereum" 500).2).requestCounters
        wEndpointB.url =
      (lookupA wStateP.requestCounters wEndpointB.url).map
        (fun ctr => Counter.mk (ctr.count + 1) ctr.lastReset) :=
  priority_selection wStateP "ethereum" 500 [wEndpointA, wEndpointB]
    wStateP wEndpointB wEndpointA rfl rfl (Or.inr rfl) (by decide)
    (by decide)

/-! ### Claim C2: rate cap -/

/-- While `now` is still inside the counter window of `u` (`now - r <
1000`), the filter pass leaves `u`'s counter untouched, and every candidate
it lets through with url `u` must satisfy `count < safeLimit cap`. -/
theorem filterHealthy_counter_lt (now : Nat) (u : String) (c r : Nat)
    (hlt : now - r < 1000) :
    ∀ (conns : List Endpoint) (st : RPCState),
      lookupA st.requestCounters u = some ⟨c, r⟩ →
      lookupA ((filterHealthy now st conns).2).requestCounters u =
        some ⟨c, r⟩ ∧
      ∀ e ∈ (filterHealthy now st conns).1, e.url = u →
        c < safeLimit e.maxRequestsPerSecond := by
  intro conns
  induction conns with
  | nil =>
    intro st h
    exact ⟨h, by simp [filterHealthy]⟩
  | cons e rest ih =>
    intro st h
    rw [filterHealthy]
    by_cases hcond : (e.healthy && !st.failedRPCs.contains e.url) = true
    · rw [if_pos hcond]
      simp only
      by_cases hu : e.url = u
      · have hcan : canMakeRequest st e.url e.maxRequestsPerSecond now =
            (decide (c < safeLimit e.maxRequestsPerSecond), st) := by
          unfold canMakeRequest
          rw [hu, h]
          simp only
          rw [if_neg (by omega)]
        rw [hcan]
        obtain ⟨ih1, ih2⟩ := ih st h
        refine ⟨ih1, ?_⟩
        intro x hx hxu
        by_cases hdec : c < safeLimit e.maxRequestsPerSecond
        · rw [if_pos (decide_eq_true hdec)] at hx
          rcases List.mem_cons.mp hx with rfl | hx
          · exact hdec
          · exact ih2 x hx hxu
        · rw [if_neg (fun hc => hdec (of_decide_eq_true hc))] at hx
          exact ih2 x hx hxu
      · have hpres :
            lookupA (canMakeRequest st e.url e.maxRequestsPerSecond
              now).2.requestCounters u = some ⟨c, r⟩ := by
          unfold canMakeRequest
          cases hl : lookupA st.requestCounters e.url
          · exact h
          · simp only
            split
            · simp only [lookupA_setA]
              rw [if_neg hu]
              exact h
            · exact h
        obtain ⟨ih1, ih2⟩ := ih _ hpres
        refine ⟨ih1, ?_⟩
        intro x hx hxu
        by_cases hp : (canMakeRequest st e.url e.maxRequestsPerSecond now).1
          = true
        · rw [if_pos hp] at hx
          rcases List.mem_cons.mp hx with rfl | hx
          · exact absurd hxu hu
          · exact ih2 x hx hxu
        · rw [if_neg hp] at hx
          exact ih2 x hx hxu
    · rw [if_neg hcond]
      exact ih st h

/-- One successful `getBestRPCAux` run that selects an endpoint with url
`u` while `u`'s counter window is still open (`now - r < 1000`) requires
`count < safeLimit cap` and leaves the counter at `count + 1` with the same
window start. -/
theorem getBestRPCAux_count_step (chain u : String) (cap : Nat)
    (now c r : Nat) (hlt : now - r < 1000) :
    ∀ (fuel : Nat) (st : RPCState) (sel : Endpoint) (st' : RPCState),
      getBestRPCAux fuel st chain now = (.ok sel, st') →
      lookupA st.requestCounters u = some ⟨c, r⟩ →
      capAt st chain u cap →
      sel.url = u →
      c < safeLimit cap ∧
      lookupA st'.requestCounters u = some ⟨c + 1, r⟩ ∧
      capAt st' chain u cap := by
  intro fuel
  induction fuel with
  | zero =>
    intro st sel st' heq
    simp [getBestRPCAux] at heq
  | succ fuel ih =>
    intro st sel st' heq hctr hcap hurl
    rw [getBestRPCAux_step] at heq
    cases hi : st.initialized
    · rw [hi] at heq
      simp at heq
    · rw [hi] at heq
      simp only [Bool.not_true, Bool.false_eq_true, if_false] at heq
      cases hc : lookupA st.connections chain
      · rw [hc] at heq
        simp at heq
      · rename_i conns
        rw [hc] at heq
        simp only at heq
        have hfl := filterHealthy_counter_lt now u c r hlt conns st hctr
        have hfr := filterHealthy_frames now conns st
        cases hf : (filterHealthy now st conns).1
        · rw [hf] at heq
          simp only at heq
          split at heq
          · -- circuit-breaker recursion with the cleared failed set
            refine ih { (filterHealthy now st conns).2 with
              failedRPCs := [] } sel st' heq ?_ ?_ hurl
            · exact hfl.1
            · intro conns2 hc2 e he hu2
              have hcs : lookupA ((filterHealthy now st conns).2).connections
                  chain = some conns2 := hc2
              rw [hfr.2.2.1] at hcs
              exact hcap conns2 hcs e he hu2
          · simp at heq
        · rename_i c0 cs
          rw [hf] at heq
          simp only at heq
          cases hs : sortLE rpcLE (c0 :: cs)
          · exact absurd hs (sortLE_ne_nil rpcLE c0 cs)
          · rename_i sel0 rest
            rw [hs] at heq
            simp only [Prod.mk.injEq, Except.ok.injEq] at heq
            obtain ⟨hsel, hst'⟩ := heq
            have hsel0u : sel0.url = u := by
              have : (markSelected now sel0).url = sel.url := by rw [hsel]
              simpa [markSelected] using this.trans hurl
            have hsel0mem : sel0 ∈ (filterHealthy now st conns).1 := by
              rw [hf]
              have : sel0 ∈ sortLE rpcLE (c0 :: cs) := by
                rw [hs]
                exact List.mem_cons_self sel0 rest
              exact (mem_sortLE rpcLE sel0 (c0 :: cs)).mp this
            have hsel0conns : sel0 ∈ conns :=
              filterHealthy_mem now conns st sel0 hsel0mem
            have hcap0 : sel0.maxRequestsPerSecond = cap :=
              hcap conns hc sel0 hsel0conns hsel0u
            refine ⟨?_, ?_, ?_⟩
            · have := hfl.2 sel0 hsel0mem hsel0u
              rw [hcap0] at this
              exact this
            · rw [← hst']
              rw [lookupA_updateRequestCounter]
              simp only
              rw [hsel0u, hfl.1]
              simp
            · intro conns2 hc2 e he hu2
              rw [← hst'] at hc2
              rw [(updateRequestCounter_frames _ _).2.2.1] at hc2
              simp only at hc2
              rw [lookupA_setA] at hc2
              rw [if_pos rfl] at hc2
              obtain rfl : (conns.map fun e =>
                  if e.connection = sel0.connection then markSelected now e
                  else e) = conns2 := by
                injection hc2
              obtain ⟨e0, he0, rfl⟩ := List.mem_map.mp he
              by_cases hcn : e0.connection = sel0.connection
              · rw [if_pos hcn] at hu2 ⊢
                have : e0.url = u := by simpa [markSelected] using hu2
                have := hcap conns hc e0 he0 this
                simpa [markSelected] using this
              · rw [if_neg hcn] at hu2 ⊢
                exact hcap conns hc e0 he0 hu2

/-- Along a trace of successful selections of url `u` that all happen
inside one counter window of `u` (every `t - r < 1000`, so the counter is
never reset), the counter admits at most `safeLimit cap - count` further
selections. -/
theorem selections_cap (chain u : String) (cap r : Nat) :
    ∀ (ts : List Nat) (t : Nat) (st : RPCState) (c : Nat),
      lookupA st.requestCounters u = some ⟨c, r⟩ →
      capAt st chain u cap →
      t - r < 1000 →
      (∀ t' ∈ ts, t' - r < 1000) →
      allSelectU st chain u (t :: ts) = true →
      c + ts.length < safeLimit cap := by
  intro ts
  induction ts with
  | nil =>
    intro t st c hctr hcap hlt _ hall
    unfold allSelectU at hall
    simp only [selections, List.all_cons, List.all_nil, Bool.and_true]
      at hall
    cases hres : (getBestRPC st chain t).1
    · rw [hres] at hall
      simp at hall
    · rename_i e
      rw [hres] at hall
      simp at hall
      have heq : getBestRPC st chain t =
          (.ok e, (getBestRPC st chain t).2) :=
        Prod.ext_iff.mpr ⟨hres, rfl⟩
      have hstep := getBestRPCAux_count_step chain u cap t c r hlt 2 st e
        (getBestRPC st chain t).2 heq hctr hcap hall
      simpa using hstep.1
  | cons t2 ts ih =>
    intro t st c hctr hcap hlt hts hall
    unfold allSelectU at hall
    rw [selections] at hall
    simp only [List.all_cons] at hall
    rw [Bool.and_eq_true] at hall
    obtain ⟨h1, h2⟩ := hall
    cases hres : (getBestRPC st chain t).1
    · rw [hres] at h1
      simp at h1
    · rename_i e
      rw [hres] at h1
      simp at h1
      have heq : getBestRPC st chain t =
          (.ok e, (getBestRPC st chain t).2) :=
        Prod.ext_iff.mpr ⟨hres, rfl⟩
      obtain ⟨hstep1, hstep2, hstep3⟩ :=
        getBestRPCAux_count_step chain u cap t c r hlt 2 st e
          (getBestRPC st chain t).2 heq hctr hcap h1
      have hrec := ih t2 (getBestRPC st chain t).2 (c + 1) hstep2 hstep3
        (hts t2 (List.mem_cons_self t2 ts))
        (fun t' ht' => hts t' (List.mem_cons_of_mem t2 ht'))
        h2
      simp only [List.length_cons]
      omega

/-- C2 (amended): the rate counter for an url resets to 0 (with a fresh
window start) whenever `now - lastReset ≥ 1000`; inside a window the
endpoint passes the filter only while `count < floor(cap * 0.8)`; and
consequently at most `floor(cap * 0.8)` selections of an endpoint can occur
within one counter window — a fixed window starting at the counter's
`lastReset`, not a rolling 1-second window (a rolling window straddling a
reset can see up to twice the cap; see the counterexample). -/
theorem rate_cap_fixed_window :
    (∀ (st : RPCState) (url : String) (maxRPS now c r : Nat),
      lookupA st.requestCounters url = some ⟨c, r⟩ →
      1000 ≤ now - r →
      canMakeRequest st url maxRPS now =
        (true,
         { st with
             requestCounters := setA st.requestCounters url ⟨0, now⟩ })) ∧
    (∀ (st : RPCState) (url : String) (maxRPS now c r : Nat),
      lookupA st.requestCounters url = some ⟨c, r⟩ →
      now - r < 1000 →
      canMakeRequest st url maxRPS now =
        (decide (c < safeLimit maxRPS), st)) ∧
    (∀ (chain u : String) (cap r t : Nat) (ts : List Nat)
        (st : RPCState) (c : Nat),
      lookupA st.requestCounters u = some ⟨c, r⟩ →
      capAt st chain u cap →
      t - r < 1000 → (∀ t' ∈ ts, t' - r < 1000) →
      allSelectU st chain u (t :: ts) = true →
      c + (t :: ts).length ≤ safeLimit cap) := by
  refine ⟨?_, ?_, ?_⟩
  · intro st url maxRPS now c r hctr hge
    unfold canMakeRequest
    rw [hctr]
    simp only
    rw [if_pos hge]
  · intro st url maxRPS now c r hctr hlt
    unfold canMakeRequest
    rw [hctr]
    simp only
    rw [if_neg (by omega)]
  · intro chain u cap r t ts st c hctr hcap hlt hts hall
    have := selections_cap chain u cap r ts t st c hctr hcap hlt hts hall
    simp only [List.length_cons]
    omega

/-- Witness for the amended C2 on the concrete one-endpoint manager. -/
theorem rate_cap_fixed_window_witness :
    canMakeRequest wState "u" 5 2000 =
      (true,
       { wState with
           requestCounters := setA wState.requestCounters "u" ⟨0, 2000⟩ }) ∧
    canMakeRequest wState "u" 5 500 = (decide (0 < safeLimit 5), wState) ∧
    (0 : Nat) + ([999] : List Nat).length ≤ safeLimit 5 :=
  have hcap : capAt wState "solana" "u" 5 := by
    intro conns hc e he hu
    have hconns : ([wEndpoint] : List Endpoint) = conns := by
      injection hc
    rw [← hconns] at he
    rcases List.mem_cons.mp he with rfl | habs
    · rfl
    · simp at habs
  ⟨rate_cap_fixed_window.1 wState "u" 5 2000 0 0 rfl (by decide),
   rate_cap_fixed_window.2.1 wState "u" 5 500 0 0 rfl (by decide),
   rate_cap_fixed_window.2.2 "solana" "u" 5 0 999 [] wState 0 rfl hcap
     (by decide) (by simp) (by decide)⟩

/-- C2 counterexample to the rolling-window reading: with capacity 5
(`floor(5*0.8) = 4`), eight consecutive `getBestRPC` calls at times 999,
999, 999, 999, 1000, 1000, 1000, 1000 — all inside one rolling 1-second
window, the last four only 1ms after the first four — every one succeed
and select the same endpoint, because the fixed-window counter resets at
t = 1000. -/
theorem rate_cap_counterexample :
    safeLimit 5 = 4 ∧
    (selections wState "solana"
      [999, 999, 999, 999, 1000, 1000, 1000, 1000]).length = 8 ∧
    allSelectU wState "solana" "u"
      [999, 999, 999, 999, 1000, 1000, 1000, 1000] = true ∧
    (1000 : Nat) - 999 < 1000 ∧ (4 : Nat) < 8 := by
  refine ⟨by decide, by decide, by decide, by decide, by decide⟩

/-! ### Claim C4: non-retryable errors -/

/-- C4 (amended): an operation whose thrown error has a message containing
`'Invalid'` or `'Not found'` — and which is not also classified as a
rate-limit error (`code 429`, or message containing `'429'` or
`'rate limit'`) or a network error (message containing `'fetch failed'`,
or code `'NETWORK_ERROR'`) — is attempted exactly once: the error is
raised immediately with no backoff sleep.  (If one of those two earlier
checks matches, the code retries first; see the counterexample.) -/
theorem nonretryable_one_attempt (st : RPCState) (chain : String)
    (maxRetries now : Nat) (sel : Endpoint) (st1 : RPCState) (E : JsError)
    (hmr : 1 ≤ maxRetries)
    (hsel : getBestRPC st chain now = (.ok sel, st1))
    (hNR : isNonRetryable E = true)
    (hnotRL : isRateLimitErr E = false)
    (hnotNW : isNetworkErr E = false) :
    executeWithRetry st chain (fun _ _ => .err E) maxRetries now =
      ⟨.error (some E), 1, 0, now, st1, none⟩ := by
  unfold executeWithRetry
  cases maxRetries with
  | zero => omega
  | succ m =>
    simp only [executeAux]
    rw [hsel]
    simp only [hnotRL, hnotNW, hNR, Bool.false_and, Bool.false_eq_true,
      if_false, if_true]

/-- C4 counterexample: the message `"Invalid rate limit"` contains
`'Invalid'`, yet with `maxRetries = 2` the operation is attempted twice
with a 5000ms backoff sleep in between, because the rate-limit check
(message contains `'rate limit'`) is evaluated before the non-retryable
check. -/
theorem nonretryable_counterexample :
    isNonRetryable wErrInvRL = true ∧
    (executeWithRetry wState "solana"
      (fun _ _ => .err wErrInvRL) 2 2000).attemptsMade = 2 ∧
    (executeWithRetry wState "solana"
      (fun _ _ => .err wErrInvRL) 2 2000).totalSleep = 5000 := by
  refine ⟨by decide, by decide, by decide⟩

/-- Witness for the amended C4: `"Invalid address"` at a concrete
ready-to-select state is attempted once, with no sleep. -/
theorem nonretryable_one_attempt_witness :
    executeWithRetry wState "solana" (fun _ _ => .err wErrInv) 3 2000 =
      ⟨.error (some wErrInv), 1, 0, 2000,
       ⟨true, [],
        [("solana", [⟨"u", 1, 5, 7, true, 2000, 1, 0⟩])],
        [("u", ⟨1, 2000⟩)], [("solana", [⟨"u", 1, 5⟩])], 0⟩, none⟩ :=
  nonretryable_one_attempt wState "solana" 3 2000
    (markSelected 2000 wEndpoint)
    ⟨true, [],
     [("solana", [⟨"u", 1, 5, 7, true, 2000, 1, 0⟩])],
     [("u", ⟨1, 2000⟩)], [("solana", [⟨"u", 1, 5⟩])], 0⟩
    wErrInv (by decide) rfl (by decide) (by decide) (by decide)

/-! ### Claim C1: retry exhaustion under rate limiting -/

/-- Running the retry loop from `attempt` (with `gas` iterations left and a
selectable single-endpoint pool) against an operation that always throws
the rate-limit error `E`: every remaining attempt is made, each attempt but
the last sleeps `rateLimitWait E`, and the loop ends by rethrowing `E`. -/
theorem executeAux_rateLimit (chain u : String) (E : JsError)
    (hE : isRateLimitErr E = true) (maxRetries : Nat) :
    ∀ (gas attempt : Nat) (st : RPCState) (e : Endpoint)
      (lastErr : Option JsError) (now sleepAcc attempts c r : Nat),
      gas + attempt = maxRetries + 1 →
      1 ≤ attempt →
      attempt ≤ maxRetries →
      st.initialized = true →
      lookupA st.connections chain = some [e] →
      e.url = u →
      e.healthy = true →
      st.failedRPCs.contains u = false →
      lookupA st.requestCounters u = some ⟨c, r⟩ →
      r ≤ now →
      (1000 ≤ now - r ∨ c < safeLimit e.maxRequestsPerSecond) →
      (executeAux chain (fun _ _ => .err E) maxRetries gas attempt lastErr
          now sleepAcc attempts st).result = .error (some E) ∧
      (executeAux chain (fun _ _ => .err E) maxRetries gas attempt lastErr
          now sleepAcc attempts st).attemptsMade = attempts + gas ∧
      (executeAux chain (fun _ _ => .err E) maxRetries gas attempt lastErr
          now sleepAcc attempts st).totalSleep =
        sleepAcc + (gas - 1) * rateLimitWait E := by
  intro gas
  induction gas with
  | zero =>
    intro attempt st e lastErr now sleepAcc attempts c r hga h1 hle
    omega
  | succ gas ih =>
    intro attempt st e lastErr now sleepAcc attempts c r hga h1 hle hinit
      hpool hurl hh hnf hctr hr hsel
    have hnfe : st.failedRPCs.contains e.url = false := by
      rw [hurl]
      exact hnf
    have hctre : lookupA st.requestCounters e.url = some ⟨c, r⟩ := by
      rw [hurl]
      exact hctr
    obtain ⟨st', c', r', heq, hinit', hpool', hfail', hctr', hr'⟩ :=
      getBestRPC_singleton st chain now e c r hinit hpool hh hnfe hctre hr
        hsel
    simp only [executeAux]
    rw [heq]
    simp only
    rw [hE]
    simp only [Bool.true_and]
    by_cases hlt : attempt < maxRetries
    · rw [if_pos (decide_eq_true hlt)]
      have hgas1 : 1 ≤ gas := by omega
      have hw := rateLimitWait_bounds E
      obtain ⟨ih1, ih2, ih3⟩ := ih (attempt + 1) st' (markSelected now e)
        (some E) (now + rateLimitWait E) (sleepAcc + rateLimitWait E)
        (attempts + 1) c' r'
        (by omega) (by omega) (by omega)
        hinit' hpool'
        (by simpa [markSelected] using hurl)
        (by simpa [markSelected] using hh)
        (by rw [hfail']; exact hnf)
        (by simpa [markSelected, hurl] using hctr')
        (by omega)
        (Or.inl (by omega))
      refine ⟨ih1, ?_, ?_⟩
      · rw [ih2]
        omega
      · rw [ih3]
        have hmulw : (gas + 1 - 1) * rateLimitWait E =
            (gas - 1) * rateLimitWait E + rateLimitWait E := by
          cases gas with
          | zero => omega
          | succ g =>
            simp only [Nat.add_sub_cancel, Nat.succ_sub_one]
            rw [Nat.succ_mul]
        omega
    · rw [if_neg (fun hc => hlt (of_decide_eq_true hc))]
      rw [if_neg (by simp [hlt])]
      have hgas0 : gas = 0 := by omega
      subst hgas0
      by_cases hNR : isNonRetryable E = true
      · rw [if_pos hNR]
        refine ⟨rfl, rfl, by simp⟩
      · rw [if_neg hNR, if_neg hlt]
        simp [executeAux]

/-- C1 (amended): with a selectable endpoint and an operation that always
throws a rate-limit error, `executeWithRetry(chain, op, maxRetries)` makes
exactly `maxRetries` attempts and then raises the last observed error; the
per-attempt rate-limit wait is clamped to `[5000ms, 60000ms]`, but only
the first `maxRetries - 1` attempts sleep (the last attempt throws without
a backoff), so the cumulative sleep is exactly `(maxRetries - 1)` waits —
at least `(maxRetries - 1) * 5000ms`, not `maxRetries * 5000ms`. -/
theorem rateLimit_retry_exhaustion (st : RPCState) (chain : String)
    (e : Endpoint) (c r now maxRetries : Nat) (E : JsError)
    (hmr : 1 ≤ maxRetries)
    (hinit : st.initialized = true)
    (hpool : lookupA st.connections chain = some [e])
    (hh : e.healthy = true)
    (hnf : st.failedRPCs.contains e.url = false)
    (hctr : lookupA st.requestCounters e.url = some ⟨c, r⟩)
    (hr : r ≤ now)
    (hsel : 1000 ≤ now - r ∨ c < safeLimit e.maxRequestsPerSecond)
    (hE : isRateLimitErr E = true) :
    (executeWithRetry st chain (fun _ _ => .err E) maxRetries now).result =
      .error (some E) ∧
    (executeWithRetry st chain
      (fun _ _ => .err E) maxRetries now).attemptsMade = maxRetries ∧
    (executeWithRetry st chain
        (fun _ _ => .err E) maxRetries now).totalSleep =
      (maxRetries - 1) * rateLimitWait E ∧
    5000 ≤ rateLimitWait E ∧ rateLimitWait E ≤ 60000 := by
  obtain ⟨h1, h2, h3⟩ := executeAux_rateLimit chain e.url E hE maxRetries
    maxRetries 1 st e none now 0 0 c r (by omega) (by omega) hmr hinit
    hpool rfl hh hnf hctr hr hsel
  have hw := rateLimitWait_bounds E
  unfold executeWithRetry
  refine ⟨h1, ?_, ?_, hw.1, hw.2⟩
  · rw [h2]
    omega
  · rw [h3]
    omega

/-- C1 counterexample: an always-rate-limited operation with
`maxRetries = 3` is attempted exactly 3 times and raises, but the
cumulative sleep is 10000ms (two default 5000ms waits): less than
`maxRetries * 5000 = 15000`.  Only the attempts before the last sleep. -/
theorem rateLimit_retry_counterexample :
    (executeWithRetry wState "solana"
      (fun _ _ => .err wErrRL) 3 2000).attemptsMade = 3 ∧
    (executeWithRetry wState "solana"
      (fun _ _ => .err wErrRL) 3 2000).result = .error (some wErrRL) ∧
    (executeWithRetry wState "solana"
      (fun _ _ => .err wErrRL) 3 2000).totalSleep = 10000 ∧
    ¬ ((3 : Nat) * 5000 ≤ 10000) :=
  ⟨by decide, rfl, by decide, by decide⟩

/-- Witness for the amended C1 at the concrete fresh manager. -/
theorem rateLimit_retry_exhaustion_witness :
    (executeWithRetry wState "solana"
      (fun _ _ => .err wErrRL) 3 2000).result = .error (some wErrRL) ∧
    (executeWithRetry wState "solana"
      (fun _ _ => .err wErrRL) 3 2000).attemptsMade = 3 ∧
    (executeWithRetry wState "solana"
        (fun _ _ => .err wErrRL) 3 2000).totalSleep =
      (3 - 1) * rateLimitWait wErrRL ∧
    5000 ≤ rateLimitWait wErrRL ∧ rateLimitWait wErrRL ≤ 60000 :=
  rateLimit_retry_exhaustion wState "solana" wEndpoint 0 0 2000 3 wErrRL
    (by decide) rfl rfl rfl (by decide) rfl (by decide)
    (Or.inl (by decide)) (by decide)

/-! ### Claim C6: success resets the endpoint's error state -/

/-- Any successful `getBestRPCAux` run returns an endpoint that lives in
the result state's pool for the chain. -/
theorem getBestRPCAux_ok_mem (chain : String) (now : Nat) :
    ∀ (fuel : Nat) (st : RPCState) (sel : Endpoint) (st' : RPCState),
      getBestRPCAux fuel st chain now = (.ok sel, st') →
      ∃ conns', lookupA st'.connections chain = some conns' ∧
        sel ∈ conns' := by
  intro fuel
  induction fuel with
  | zero =>
    intro st sel st' heq
    simp [getBestRPCAux] at heq
  | succ fuel ih =>
    intro st sel st' heq
    rw [getBestRPCAux_step] at heq
    cases hi : st.initialized
    · rw [hi] at heq
      simp at heq
    · rw [hi] at heq
      simp only [Bool.not_true, Bool.false_eq_true, if_false] at heq
      cases hc : lookupA st.connections chain
      · rw [hc] at heq
        simp at heq
      · rename_i conns
        rw [hc] at heq
        simp only at heq
        cases hf : (filterHealthy now st conns).1
        · rw [hf] at heq
          simp only at heq
          split at heq
          · exact ih _ sel st' heq
          · simp at heq
        · rename_i c0 cs
          rw [hf] at heq
          simp only at heq
          cases hs : sortLE rpcLE (c0 :: cs)
          · exact absurd hs (sortLE_ne_nil rpcLE c0 cs)
          · rename_i sel0 rest
            rw [hs] at heq
            simp only [Prod.mk.injEq, Except.ok.injEq] at heq
            obtain ⟨hsel, hst'⟩ := heq
            have hsel0mem : sel0 ∈ conns := by
              refine filterHealthy_mem now conns st sel0 ?_
              rw [hf]
              refine (mem_sortLE rpcLE sel0 (c0 :: cs)).mp ?_
              rw [hs]
              exact List.mem_cons_self sel0 rest
            refine ⟨conns.map (fun e =>
              if e.connection = sel0.connection then markSelected now e
              else e), ?_, ?_⟩
            · rw [← hst', (updateRequestCounter_frames _ _).2.2.1]
              simp only
              rw [lookupA_setA, if_pos rfl]
            · rw [← hsel]
              exact List.mem_map.mpr ⟨sel0, hsel0mem, by rw [if_pos rfl]⟩

/-- `resetRPCErrors` on a connection id that is present in the chain's pool
produces a pool member with that id whose `errorCount` is 0, whose
`healthy` flag is set, and whose url is gone from the failed set. -/
theorem resetRPCErrors_found (st : RPCState) (chain : String) (cid : Nat)
    (conns : List Endpoint) (sel : Endpoint)
    (hconns : lookupA st.connections chain = some conns)
    (hmem : sel ∈ conns) (hcid : sel.connection = cid) :
    ∃ conns2 e',
      lookupA (resetRPCErrors st chain cid).connections chain =
        some conns2 ∧
      e' ∈ conns2 ∧ e'.connection = cid ∧ e'.errorCount = 0 ∧
      e'.healthy = true ∧
      (resetRPCErrors st chain cid).failedRPCs.contains e'.url = false := by
  unfold resetRPCErrors
  rw [hconns]
  simp only
  cases hfind : conns.find? (fun c => c.connection == cid)
  · exfalso
    have hnone := List.find?_eq_none.mp hfind sel hmem
    simp [hcid] at hnone
  · rename_i w
    have hwp := List.find?_some hfind
    have hwcid : w.connection = cid := by simpa using hwp
    have hwmem : w ∈ conns := List.mem_of_find?_eq_some hfind
    simp only
    refine ⟨conns.map (fun e =>
      if e.connection = cid then { e with errorCount := 0, healthy := true }
      else e),
      { w with errorCount := 0, healthy := true }, ?_, ?_, hwcid, rfl, rfl,
      ?_⟩
    · rw [lookupA_setA, if_pos rfl]
    · exact List.mem_map.mpr ⟨w, hwmem, by rw [if_pos hwcid]⟩
    · exact contains_setDelete_self _ _

/-- In any run of the retry loop that returns a value, the final state was
produced by `resetRPCErrors` on the successful attempt's connection: some
pool endpoint with that connection id ends with `errorCount = 0`,
`healthy = true`, and its url outside the failed set. -/
theorem executeAux_ok_reset (chain : String) (op : Nat → Nat → OpOut)
    (maxRetries : Nat) :
    ∀ (gas attempt : Nat) (lastErr : Option JsError)
      (now sleepAcc attempts : Nat) (st : RPCState) (v : Nat),
      (executeAux chain op maxRetries gas attempt lastErr now sleepAcc
        attempts st).result = .ok v →
      ∃ cid conns' e',
        (executeAux chain op maxRetries gas attempt lastErr now sleepAcc
          attempts st).succConn = some cid ∧
        lookupA ((executeAux chain op maxRetries gas attempt lastErr now
          sleepAcc attempts st).state).connections chain = some conns' ∧
        e' ∈ conns' ∧ e'.connection = cid ∧ e'.errorCount = 0 ∧
        e'.healthy = true ∧
        ((executeAux chain op maxRetries gas attempt lastErr now sleepAcc
          attempts st).state).failedRPCs.contains e'.url = false := by
  intro gas
  induction gas with
  | zero =>
    intro attempt lastErr now sleepAcc attempts st v hres
    simp [executeAux] at hres
  | succ gas ih =>
    intro attempt lastErr now sleepAcc attempts st v hres
    rcases hbest : getBestRPC st chain now with ⟨res1, st1⟩
    cases res1 with
    | error rerr =>
      simp only [executeAux, hbest] at hres ⊢
      by_cases h1 : (isRateLimitErr (errOfRPCErr rerr) &&
          decide (attempt < maxRetries)) = true
      · rw [if_pos h1] at hres ⊢
        exact ih _ _ _ _ _ _ _ hres
      · rw [if_neg h1] at hres ⊢
        by_cases h2 : (isNetworkErr (errOfRPCErr rerr) &&
            decide (attempt < maxRetries)) = true
        · rw [if_pos h2] at hres ⊢
          exact ih _ _ _ _ _ _ _ hres
        · rw [if_neg h2] at hres ⊢
          by_cases h3 : isNonRetryable (errOfRPCErr rerr) = true
          · rw [if_pos h3] at hres ⊢
            simp at hres
          · rw [if_neg h3] at hres ⊢
            by_cases h4 : attempt < maxRetries
            · rw [if_pos h4] at hres ⊢
              exact ih _ _ _ _ _ _ _ hres
            · rw [if_neg h4] at hres ⊢
              exact ih _ _ _ _ _ _ _ hres
    | ok sel =>
      cases hop : op attempt sel.connection with
      | ok v' =>
        simp only [executeAux, hbest, hop] at hres ⊢
        obtain ⟨conns1, hconns1, hmem1⟩ :=
          getBestRPCAux_ok_mem chain now 2 st sel st1 hbest
        obtain ⟨conns2, e', hc2, hm2, hcid2, herr2, hh2, hf2⟩ :=
          resetRPCErrors_found st1 chain sel.connection conns1 sel hconns1
            hmem1 rfl
        exact ⟨sel.connection, conns2, e', rfl, hc2, hm2, hcid2, herr2, hh2,
          hf2⟩
      | err e =>
        simp only [executeAux, hbest, hop] at hres ⊢
        by_cases h1 : (isRateLimitErr e && decide (attempt < maxRetries))
            = true
        · rw [if_pos h1] at hres ⊢
          exact ih _ _ _ _ _ _ _ hres
        · rw [if_neg h1] at hres ⊢
          by_cases h2 : (isNetworkErr e && decide (attempt < maxRetries))
              = true
          · rw [if_pos h2] at hres ⊢
            exact ih _ _ _ _ _ _ _ hres
          · rw [if_neg h2] at hres ⊢
            by_cases h3 : isNonRetryable e = true
            · rw [if_pos h3] at hres ⊢
              simp at hres
            · rw [if_neg h3] at hres ⊢
              by_cases h4 : attempt < maxRetries
              · rw [if_pos h4] at hres ⊢
                exact ih _ _ _ _ _ _ _ hres
              · rw [if_neg h4] at hres ⊢
                exact ih _ _ _ _ _ _ _ hres

/-- C6: after every successful `executeWithRetry` call, the endpoint whose
connection the operation ran against ends with `errorCount = 0`,
`healthy = true`, and its url absent from the failed set; and when the
first attempt's operation succeeds, the result is returned immediately —
one attempt, no sleep, the final state exactly `resetRPCErrors` applied to
the post-selection state. -/
theorem success_resets (st : RPCState) (chain : String)
    (op : Nat → Nat → OpOut) (maxRetries now v : Nat) :
    ((executeWithRetry st chain op maxRetries now).result = .ok v →
      ∃ cid conns' e',
        (executeWithRetry st chain op maxRetries now).succConn = some cid ∧
        lookupA
          (executeWithRetry st chain op maxRetries now).state.connections
          chain = some conns' ∧
        e' ∈ conns' ∧ e'.connection = cid ∧ e'.errorCount = 0 ∧
        e'.healthy = true ∧
        (executeWithRetry st chain op maxRetries
          now).state.failedRPCs.contains e'.url = false) ∧
    (∀ (sel : Endpoint) (st1 : RPCState), 1 ≤ maxRetries →
      getBestRPC st chain now = (.ok sel, st1) →
      op 1 sel.connection = .ok v →
      executeWithRetry st chain op maxRetries now =
        ⟨.ok v, 1, 0, now, resetRPCErrors st1 chain sel.connection,
         some sel.connection⟩) := by
  constructor
  · intro hres
    exact executeAux_ok_reset chain op maxRetries maxRetries 1 none now 0 0
      st v hres
  · intro sel st1 hmr hbest hop
    cases maxRetries with
    | zero => omega
    | succ m =>
      unfold executeWithRetry
      simp only [executeAux, hbest, hop]

/-- Witness for C6: the concrete errored-and-failed endpoint is fully
reset by one successful call. -/
theorem success_resets_witness :
    (∃ cid conns' e',
      (executeWithRetry wStateErr "solana" wOpOk 3 2000).succConn =
        some cid ∧
      lookupA
        (executeWithRetry wStateErr "solana" wOpOk 3 2000).state.connections
        "solana" = some conns' ∧
      e' ∈ conns' ∧ e'.connection = cid ∧ e'.errorCount = 0 ∧
      e'.healthy = true ∧
      (executeWithRetry wStateErr "solana" wOpOk 3
        2000).state.failedRPCs.contains e'.url = false) ∧
    executeWithRetry wStateErr "solana" wOpOk 3 2000 =
      ⟨.ok 42, 1, 0, 2000,
       resetRPCErrors
         ⟨true, [],
          [("solana", [⟨"u", 1, 5, 7, true, 2000, 1, 3⟩])],
          [("u", ⟨1, 2000⟩)], [], 0⟩ "solana" 7,
       some 7⟩ :=
  have h := success_resets wStateErr "solana" wOpOk 3 2000 42
  ⟨h.1 rfl,
   h.2 ⟨"u", 1, 5, 7, true, 2000, 1, 3⟩
     ⟨true, [],
      [("solana", [⟨"u", 1, 5, 7, true, 2000, 1, 3⟩])],
      [("u", ⟨1, 2000⟩)], [], 0⟩
     (by decide) rfl rfl⟩

end RPCManager
